import Mathlib

/-!
Verification of the derived-artifact cache and composition engine of the
Tobira AI service.  The definitions below are a shallow embedding of the
TypeScript source: database tables and the in-memory cache become finite
maps (Lean functions), SQL queries become pure list computations, and the
async control flow of each service method becomes a total function on an
explicit environment.  Machine integers of the source (Postgres BIGINT ids,
int order hints) are modelled as Nat and Int; fallible operations return
Except values.
-/

namespace TobiraAI

/-! ## Data model

Mirrors the interfaces in src/services/cumulative-quiz.service.ts and the
Postgres tables (all_events, ai_quizzes, ai_cumulative_quizzes,
ai_summaries, video_transcripts). -/

/-- A row of the all_events table, with the fields the cumulative-quiz
service reads: id, title, series (nullable), state, the optional integer
order hint extracted from metadata, and the created timestamp. -/
structure DbEvent where
  id : Nat
  title : String
  seriesId : Option Nat
  state : String
  orderHint : Option Int
  created : Int
deriving DecidableEq

/-- A member of a series as returned by the ordered-events query:
id, title and the assigned ROW_NUMBER position (1-based). -/
structure SeriesEvent where
  id : Nat
  title : String
  position : Nat
deriving DecidableEq

/-- The videoContext provenance tag attached to each merged question. -/
structure VideoContext where
  eventId : Nat
  videoTitle : String
  videoNumber : Nat
  timestamp : Option Nat
deriving DecidableEq

/-- A question as stored in ai_quizzes quiz_data (before merging). -/
structure SourceQuestion where
  question : String
  questionType : String
  options : Option (List String)
  correctAnswer : String
  explanation : String
  difficulty : String
  timestamp : Option Nat
deriving DecidableEq

/-- A question of a cumulative quiz, carrying its videoContext tag. -/
structure CumulativeQuizQuestion where
  question : String
  questionType : String
  options : Option (List String)
  correctAnswer : String
  explanation : String
  difficulty : String
  videoContext : VideoContext
deriving DecidableEq

/-- The CumulativeQuiz artifact (interface CumulativeQuiz in the source).
processingTimeMs is carried but wall-clock timing is not modelled. -/
structure CumulativeQuiz where
  eventId : Nat
  seriesId : Nat
  language : String
  model : String
  questions : List CumulativeQuizQuestion
  includedEventIds : List Nat
  videoCount : Nat
  processingTimeMs : Nat
deriving DecidableEq

/-! ## Language normalization (src/utils/language.ts)

JavaScript string primitives are embedded at the character-list level:
toLowerCase maps Char.toLower over the characters, trim drops whitespace
from both ends. -/

/-- The whitespace characters relevant to trimming of language codes. -/
def isWsChar (c : Char) : Bool :=
  c = ' ' ∨ c = '\t' ∨ c = '\n' ∨ c = '\r'

/-- JavaScript String.prototype.toLowerCase restricted to the embedded
character set. -/
def jsToLower (s : String) : String := ⟨s.data.map Char.toLower⟩

/-- JavaScript String.prototype.trim. -/
def jsTrim (s : String) : String :=
  ⟨((s.data.dropWhile isWsChar).reverse.dropWhile isWsChar).reverse⟩

/-- The error message thrown by normalizeLanguageCode. -/
def languageRequiredMsg : String :=
  "Language code is required and cannot be empty"

/-- normalizeLanguageCode from src/utils/language.ts: throws when the
language is missing (undefined, modelled as none), empty, or
whitespace-only; otherwise lowercases and trims it.  A thrown error is
modelled as an Except.error carrying the message. -/
def normalizeLanguageCode (language : Option String) : Except String String :=
  match language with
  | none => .error languageRequiredMsg
  | some s =>
      if s = "" ∨ jsTrim s = "" then .error languageRequiredMsg
      else .ok (jsTrim (jsToLower s))

/-! ## Transcript and summary store operations (src/services/database.service.ts)

The tables are finite maps from (eventId, normalized language) to stored
content.  Every operation first normalizes the language; a normalization
failure surfaces before the map is consulted or changed. -/

/-- The video_transcripts table as a map from (event id, language) to
transcript content. -/
def TranscriptDb : Type := Nat → String → Option String

/-- DatabaseService.getTranscript: normalize the language, then look up
the row.  A missing row is a successful none (not an error). -/
def getTranscriptDb (db : TranscriptDb) (eventId : Nat) (language : Option String) :
    Except String (Option String) :=
  (normalizeLanguageCode language).map (fun nl => db eventId nl)

/-- DatabaseService.saveTranscript: normalize the language, then upsert
the row keyed on (event_id, language). -/
def saveTranscriptDb (db : TranscriptDb) (eventId : Nat) (language : Option String)
    (content : String) : Except String TranscriptDb :=
  (normalizeLanguageCode language).map
    (fun nl => fun e l => if e = eventId ∧ l = nl then some content else db e l)

/-- DatabaseService.hasSummary.  The source signature is
hasSummary(eventId, language = 'en'): when the caller omits the language
the JavaScript default parameter silently substitutes 'en' before
normalization runs. -/
def hasSummaryDb (db : Nat → String → Option String) (eventId : Nat)
    (language : Option String) : Except String Bool :=
  (normalizeLanguageCode (some (match language with | none => "en" | some s => s))).map
    (fun nl => (db eventId nl).isSome)

/-! ## Series membership ordering (CumulativeQuizService.getSeriesEventsUpTo)

The SQL assigns ROW_NUMBER over the series members ordered by
(CASE WHEN the metadata order hint exists THEN it ELSE 999999 END, created),
then keeps the rows whose position is at most the position of the target
event, ordered ascending by position. -/

/-- The sort key of the ordered-events query: the order hint when present,
the sentinel 999999 otherwise, paired with the created timestamp. -/
def eventKey (e : DbEvent) : Int × Int :=
  ((match e.orderHint with | some h => h | none => 999999), e.created)

/-- Lexicographic comparison on eventKey. -/
def keyLE (a b : DbEvent) : Prop :=
  (eventKey a).1 < (eventKey b).1 ∨
    ((eventKey a).1 = (eventKey b).1 ∧ (eventKey a).2 ≤ (eventKey b).2)

instance : DecidableRel keyLE := fun a b => by
  unfold keyLE; exact inferInstance

instance : IsTotal DbEvent keyLE where
  total a b := by
    unfold keyLE
    rcases lt_trichotomy (eventKey a).1 (eventKey b).1 with h | h | h
    · exact Or.inl (Or.inl h)
    · rcases le_total (eventKey a).2 (eventKey b).2 with h2 | h2
      · exact Or.inl (Or.inr ⟨h, h2⟩)
      · exact Or.inr (Or.inr ⟨h.symm, h2⟩)
    · exact Or.inr (Or.inl h)

instance : IsTrans DbEvent keyLE where
  trans a b c hab hbc := by
    unfold keyLE at *
    rcases hab with h1 | ⟨h1, h1b⟩ <;> rcases hbc with h2 | ⟨h2, h2b⟩
    · exact Or.inl (h1.trans h2)
    · exact Or.inl (h2 ▸ h1)
    · exact Or.inl (h1 ▸ h2)
    · exact Or.inr ⟨h1.trans h2, h1b.trans h2b⟩

/-- The WHERE clause of the ordered-events query: members of the series in
state ready. -/
def seriesEligible (events : List DbEvent) (sid : Nat) : List DbEvent :=
  events.filter (fun e => decide (e.seriesId = some sid ∧ e.state = "ready"))

/-- ROW_NUMBER assignment: consecutive positions starting at n along the
sorted list. -/
def assignPositions : Nat → List DbEvent → List SeriesEvent
  | _, [] => []
  | n, e :: t => ⟨e.id, e.title, n⟩ :: assignPositions (n + 1) t

/-- The ordered_events CTE: eligible members sorted by the sentinel key,
positions 1..n. -/
def orderedEvents (events : List DbEvent) (sid : Nat) : List SeriesEvent :=
  assignPositions 1 ((seriesEligible events sid).insertionSort keyLE)

/-- getSeriesEventsUpTo: join ordered_events with the position(s) of the
target event and keep rows with position at most a target position,
ascending by position.  The bind mirrors the SQL cross join; with a unique
target id it is the sorted prefix ending at the target, and an absent
target yields the empty list. -/
def getSeriesEventsUpTo (events : List DbEvent) (sid : Nat) (upToEventId : Nat) :
    List SeriesEvent :=
  let ordered := orderedEvents events sid
  let targets := (ordered.filter (fun e => decide (e.id = upToEventId))).map
    (fun e => e.position)
  ordered.flatMap (fun e =>
    (targets.filter (fun p => decide (e.position ≤ p))).map (fun _ => e))

/-! ## Per-member quiz lookup and merge -/

/-- The value getOrGenerateIndividualQuiz resolves per member. -/
structure IndividualQuiz where
  eventId : Nat
  questions : List SourceQuestion
deriving DecidableEq

/-- CumulativeQuizService.getOrGenerateIndividualQuiz: read the stored
quiz for (eventId, language); when the row is absent the member
contributes an empty question list (the absence is logged with
console.warn, no generator is called and no error is raised). -/
def getOrGenerateIndividualQuiz (quizStore : Nat → String → Option (List SourceQuestion))
    (eventId : Nat) (language : String) : IndividualQuiz :=
  match quizStore eventId language with
  | some qs => ⟨eventId, qs⟩
  | none => ⟨eventId, []⟩

/-- Tag one source question with the videoContext of the contributing
member (combineQuizzes body). -/
def tagQuestion (e : SeriesEvent) (q : SourceQuestion) : CumulativeQuizQuestion :=
  { question := q.question
    questionType := q.questionType
    options := q.options
    correctAnswer := q.correctAnswer
    explanation := q.explanation
    difficulty := q.difficulty
    videoContext :=
      { eventId := e.id
        videoTitle := e.title
        videoNumber := e.position
        timestamp := q.timestamp } }

/-- CumulativeQuizService.combineQuizzes: walk the quizzes and the member
list in lockstep (the source indexes events by the quiz index; the caller
always passes lists of equal length) and flatten the tagged questions. -/
def combineQuizzes : List IndividualQuiz → List SeriesEvent → List CumulativeQuizQuestion
  | q :: qs, e :: es => q.questions.map (tagQuestion e) ++ combineQuizzes qs es
  | _, _ => []

/-- Strip the videoContext tag from a merged question, recovering the
source question (the timestamp was copied into the tag). -/
def untagQuestion (q : CumulativeQuizQuestion) : SourceQuestion :=
  { question := q.question
    questionType := q.questionType
    options := q.options
    correctAnswer := q.correctAnswer
    explanation := q.explanation
    difficulty := q.difficulty
    timestamp := q.videoContext.timestamp }

/-! ## Cache validity (CumulativeQuizService.isCacheValid) -/

/-- The JavaScript Array.prototype.sort comparison step of isCacheValid:
both id lists are sorted and compared for equality (the source compares
the JSON strings of the sorted arrays, which is equality of the sorted
lists). -/
def sortIds (l : List Nat) : List Nat := l.insertionSort (· ≤ ·)

/-- The comparison at the heart of isCacheValid, on an already fetched
current membership. -/
def isCacheValidPure (currentEvents : List SeriesEvent) (quiz : CumulativeQuiz) : Bool :=
  decide (sortIds (currentEvents.map (fun e => e.id)) = sortIds quiz.includedEventIds)

/-- CumulativeQuizService.isCacheValid: recompute the membership and
compare id sets.  The body is wrapped in try/catch: when the membership
query throws (modelled as an Except.error), the catch logs the error and
returns false, converting the failure into a cache-invalid outcome. -/
def isCacheValid (fetched : Except String (List SeriesEvent)) (quiz : CumulativeQuiz) :
    Bool :=
  match fetched with
  | .error _ => false
  | .ok currentEvents => isCacheValidPure currentEvents quiz

/-! ## The cumulative composer (CumulativeQuizService.generateCumulativeQuiz)

The environment bundles the tables and the in-memory cache the service
touches.  seriesQueryError injects an I/O failure of the ordered-events
query (a rejected pool.query); none means the store is healthy. -/

/-- The state visible to the cumulative-quiz service. -/
structure CumulativeEnv where
  events : List DbEvent
  quizStore : Nat → String → Option (List SourceQuestion)
  cumStore : Nat → String → Option CumulativeQuiz
  cache : String → Option CumulativeQuiz
  seriesQueryError : Option String
  defaultModel : String

/-- Run the ordered-events query against the store, surfacing an injected
I/O failure as an Except.error. -/
def fetchMembers (env : CumulativeEnv) (sid : Nat) (target : Nat) :
    Except String (List SeriesEvent) :=
  match env.seriesQueryError with
  | some msg => .error msg
  | none => .ok (getSeriesEventsUpTo env.events sid target)

/-- The memory-cache key built in saveCumulativeQuiz and getCachedQuiz:
the language is interpolated verbatim, with no normalization. -/
def cumulativeCacheKey (eventId : Nat) (language : String) : String :=
  "cumulative_quiz:" ++ toString eventId ++ ":" ++ language

/-- CumulativeQuizService.getCachedQuiz: memory cache first, then the
ai_cumulative_quizzes row, both addressed with the verbatim language.
(The re-caching of a database hit only duplicates state and is dropped
from the model.) -/
def getCachedQuiz (env : CumulativeEnv) (eventId : Nat) (language : String) :
    Option CumulativeQuiz :=
  match env.cache (cumulativeCacheKey eventId language) with
  | some q => some q
  | none => env.cumStore eventId language

/-- CumulativeQuizService.saveCumulativeQuiz: upsert the
ai_cumulative_quizzes row keyed on (event_id, language) and write the
memory cache under the verbatim-language key. -/
def saveCumulativeQuiz (env : CumulativeEnv) (quiz : CumulativeQuiz) : CumulativeEnv :=
  { env with
    cumStore := fun e l =>
      if e = quiz.eventId ∧ l = quiz.language then some quiz else env.cumStore e l
    cache := fun k =>
      if k = cumulativeCacheKey quiz.eventId quiz.language then some quiz
      else env.cache k }

/-- The observable outcome of generateCumulativeQuiz: the cached artifact
returned unchanged, a freshly generated (and saved) artifact, or a thrown
error. -/
inductive GenOutcome where
  | cachedHit (quiz : CumulativeQuiz)
  | generated (quiz : CumulativeQuiz)
  | failed (message : String)
deriving DecidableEq

/-- True when the outcome is a thrown error. -/
def isFailedOutcome : GenOutcome → Bool
  | .failed _ => true
  | _ => false

/-- Steps 2-6 of generateCumulativeQuiz (after the cache check): resolve
the event (must exist, be in a series and be ready), compute the series
members up to it, fetch each member quiz from the store, merge, and build
the artifact that is then saved.  Date.now timing is modelled as 0. -/
def regenerate (env : CumulativeEnv) (eventId : Nat) (language : String) : GenOutcome :=
  match env.events.find?
      (fun e => decide (e.id = eventId ∧ e.seriesId ≠ none ∧ e.state = "ready")) with
  | none => .failed "Event not found or not part of a series"
  | some ev =>
      match ev.seriesId with
      | none => .failed "Event not found or not part of a series"
      | some sid =>
          match fetchMembers env sid eventId with
          | .error msg => .failed msg
          | .ok seriesEvents =>
              if seriesEvents = [] then .failed "No events found in series"
              else
                .generated
                  { eventId := eventId
                    seriesId := sid
                    language := language
                    model := env.defaultModel
                    questions := combineQuizzes
                      (seriesEvents.map
                        (fun e => getOrGenerateIndividualQuiz env.quizStore e.id language))
                      seriesEvents
                    includedEventIds := seriesEvents.map (fun e => e.id)
                    videoCount := seriesEvents.length
                    processingTimeMs := 0 }

/-- CumulativeQuizService.generateCumulativeQuiz: unless forced, a cached
artifact that passes the membership-snapshot validation is returned
unchanged; in every other case the quiz is regenerated. -/
def generateCumulativeQuiz (env : CumulativeEnv) (eventId : Nat) (language : String)
    (forceRegenerate : Bool) : GenOutcome :=
  if forceRegenerate then regenerate env eventId language
  else
    match getCachedQuiz env eventId language with
    | some cached =>
        if isCacheValid (fetchMembers env cached.seriesId cached.eventId) cached then
          .cachedHit cached
        else regenerate env eventId language
    | none => regenerate env eventId language

/-! ## The summary generation endpoint (POST /api/summaries/generate/:eventId)

index.ts lines 180-253.  With forceRegenerate false the handler consults
only db.getSummary (the persistent store); the in-memory cache is neither
read nor populated on a store hit.  All database operations normalize the
language; the cache key uses the verbatim request language. -/

/-- The state visible to the summary endpoint. -/
structure SummaryEnv where
  featuresEnabled : Bool
  summaries : Nat → String → Option String
  transcripts : Nat → String → Option String
  cache : String → Option String

/-- The JSON response shapes of the summary endpoint. -/
inductive SummaryOutcome where
  | disabled
  | storeHit (summary : String)
  | transcriptMissing
  | generated (summary : String)
  | serverError (message : String)
deriving DecidableEq

/-- CacheService.summaryKey. -/
def summaryKey (eventId : Nat) (language : String) : String :=
  "summary:" ++ toString eventId ++ ":" ++ language

/-- One run of the summary endpoint: the outcome, the post-state of the
store and cache, the number of store and cache writes performed, and
whether the generator was invoked. -/
structure SummaryRun where
  outcome : SummaryOutcome
  summaries : Nat → String → Option String
  cache : String → Option String
  storeWrites : Nat
  cacheWrites : Nat
  generatorInvoked : Bool

/-- The summary endpoint handler.  gen is the outcome of the
openai.generateSummary call (error = thrown GenerationError carrying the
underlying message); it is consulted only when control reaches the
generator.  The single try/catch of the handler turns any thrown error
(language validation or generation) into a 500 response carrying the
message, modelled as serverError. -/
def summaryEndpoint (env : SummaryEnv) (gen : Except String String) (eventId : Nat)
    (language : String) (force : Bool) : SummaryRun :=
  if env.featuresEnabled = false then
    ⟨.disabled, env.summaries, env.cache, 0, 0, false⟩
  else
    match normalizeLanguageCode (some language) with
    | .error msg => ⟨.serverError msg, env.summaries, env.cache, 0, 0, false⟩
    | .ok nl =>
        match (if force then none else env.summaries eventId nl) with
        | some s => ⟨.storeHit s, env.summaries, env.cache, 0, 0, false⟩
        | none =>
            match env.transcripts eventId nl with
            | none => ⟨.transcriptMissing, env.summaries, env.cache, 0, 0, false⟩
            | some _ =>
                match gen with
                | .error m => ⟨.serverError m, env.summaries, env.cache, 0, 0, true⟩
                | .ok content =>
                    ⟨.generated content,
                      fun e l =>
                        if e = eventId ∧ l = nl then some content else env.summaries e l,
                      fun k =>
                        if k = summaryKey eventId language then some content
                        else env.cache k,
                      1, 1, true⟩

/-! ## The quiz generation endpoint (POST /api/quizzes/generate/:eventId)

index.ts lines 307-381.  With forceRegenerate false the handler consults
only the in-memory cache; the ai_quizzes store is never read, so a cache
miss triggers generation even when a stored quiz exists.  The ai_quizzes
upsert uses the verbatim request language (raw SQL, no normalization);
the transcript read normalizes it. -/

/-- The state visible to the quiz endpoint. -/
structure QuizEnv where
  quizEnabled : Bool
  quizzes : Nat → String → Option (List SourceQuestion)
  transcripts : Nat → String → Option String
  cache : String → Option (List SourceQuestion)

/-- The JSON response shapes of the quiz endpoint. -/
inductive QuizOutcome where
  | disabled
  | cacheHit (quiz : List SourceQuestion)
  | transcriptMissing
  | generated (quiz : List SourceQuestion)
  | serverError (message : String)
deriving DecidableEq

/-- The quiz cache key built inline in the handler. -/
def quizCacheKey (eventId : Nat) (language : String) : String :=
  "quiz:" ++ toString eventId ++ ":" ++ language

/-- One run of the quiz endpoint, mirroring SummaryRun. -/
structure QuizRun where
  outcome : QuizOutcome
  quizzes : Nat → String → Option (List SourceQuestion)
  cache : String → Option (List SourceQuestion)
  storeWrites : Nat
  cacheWrites : Nat
  generatorInvoked : Bool

/-- The quiz endpoint handler; gen is the outcome of openai.generateQuiz. -/
def quizEndpoint (env : QuizEnv) (gen : Except String (List SourceQuestion))
    (eventId : Nat) (language : String) (force : Bool) : QuizRun :=
  if env.quizEnabled = false then
    ⟨.disabled, env.quizzes, env.cache, 0, 0, false⟩
  else
    match (if force then none else env.cache (quizCacheKey eventId language)) with
    | some q => ⟨.cacheHit q, env.quizzes, env.cache, 0, 0, false⟩
    | none =>
        match normalizeLanguageCode (some language) with
        | .error msg => ⟨.serverError msg, env.quizzes, env.cache, 0, 0, false⟩
        | .ok nl =>
            match env.transcripts eventId nl with
            | none => ⟨.transcriptMissing, env.quizzes, env.cache, 0, 0, false⟩
            | some _ =>
                match gen with
                | .error m => ⟨.serverError m, env.quizzes, env.cache, 0, 0, true⟩
                | .ok qd =>
                    ⟨.generated qd,
                      fun e l =>
                        if e = eventId ∧ l = language then some qd else env.quizzes e l,
                      fun k =>
                        if k = quizCacheKey eventId language then some qd
                        else env.cache k,
                      1, 1, true⟩

/-! ## The ordering rule as the specification words it

The spec describes the series ordering as: orderHint ascending, with every
subject lacking an orderHint placed after all subjects that have one, ties
broken by createdAt ascending.  The following definitions transcribe that
rule verbatim so it can be compared with the sentinel-based rule the SQL
implements. -/

/-- Rank 0 for subjects with an orderHint, rank 1 for subjects without
one: the claimed rule puts all hintless subjects last, whatever the hint
values are. -/
def specHintRank (e : DbEvent) : Nat :=
  match e.orderHint with | some _ => 0 | none => 1

/-- The hint value used by the claimed rule among hinted subjects. -/
def specHintVal (e : DbEvent) : Int :=
  match e.orderHint with | some h => h | none => 0

/-- The ordering the claim describes: hinted subjects first (by hint, then
createdAt), hintless subjects after all of them (by createdAt). -/
def specLE (a b : DbEvent) : Prop :=
  specHintRank a < specHintRank b ∨
    (specHintRank a = specHintRank b ∧
      (specHintVal a < specHintVal b ∨
        (specHintVal a = specHintVal b ∧ a.created ≤ b.created)))

instance : DecidableRel specLE := fun a b => by
  unfold specLE; exact inferInstance

/-- Positions assigned under the claimed ordering rule. -/
def specOrderedEvents (events : List DbEvent) (sid : Nat) : List SeriesEvent :=
  assignPositions 1 ((seriesEligible events sid).insertionSort specLE)

/-- Series membership up to the target under the claimed ordering rule,
for comparison with getSeriesEventsUpTo. -/
def specMembersUpTo (events : List DbEvent) (sid : Nat) (upToEventId : Nat) :
    List SeriesEvent :=
  let ordered := specOrderedEvents events sid
  let targets := (ordered.filter (fun e => decide (e.id = upToEventId))).map
    (fun e => e.position)
  ordered.flatMap (fun e =>
    (targets.filter (fun p => decide (e.position ≤ p))).map (fun _ => e))

/-! ## Concrete instances used by witnesses and counterexamples -/

/-- The ordering example of spec section 8: subjects A(hint 3, t1),
B(hint 1, t2), C(no hint, t3), D(hint 2, t4) in series 100. -/
def exampleSeriesEvents : List DbEvent :=
  [⟨1, "A", some 100, "ready", some 3, 1⟩,
   ⟨2, "B", some 100, "ready", some 1, 2⟩,
   ⟨3, "C", some 100, "ready", none, 3⟩,
   ⟨4, "D", some 100, "ready", some 2, 4⟩]

/-- Two series members separating the sentinel rule from the claimed
rule: event 1 carries the hint 1000000 (at least the sentinel 999999),
event 2 has no hint but an older created timestamp than the sentinel
bucket would demand. -/
def sentinelCexEvents : List DbEvent :=
  [⟨1, "A", some 10, "ready", some 1000000, 1⟩,
   ⟨2, "B", some 10, "ready", none, 2⟩]

/-- A sample stored question. -/
def demoQuestionA : SourceQuestion :=
  ⟨"What was covered first?", "true_false", none, "true", "see lecture", "easy", some 12⟩

/-- A second sample stored question. -/
def demoQuestionB : SourceQuestion :=
  ⟨"Pick one.", "multiple_choice", some ["a", "b"], "a", "by definition", "medium", none⟩

/-- A third sample stored question. -/
def demoQuestionC : SourceQuestion :=
  ⟨"True or false?", "true_false", none, "false", "counterexample", "hard", none⟩

/-- A stored cumulative artifact used when exercising the validation
paths. -/
def demoCumulativeQuiz : CumulativeQuiz :=
  { eventId := 5
    seriesId := 10
    language := "en"
    model := "gpt-4"
    questions := []
    includedEventIds := [4, 5]
    videoCount := 2
    processingTimeMs := 0 }

/-- An environment whose ordered-events query fails with an I/O error
while a cumulative artifact for event 5 sits in the store. -/
def erroringEnv : CumulativeEnv :=
  { events := []
    quizStore := fun _ _ => none
    cumStore := fun e l => if e = 5 ∧ l = "en" then some demoCumulativeQuiz else none
    cache := fun _ => none
    seriesQueryError := some "connection refused"
    defaultModel := "gpt-4" }

/-- A healthy environment over the example series in which only event 2
has a stored per-event quiz. -/
def generatingEnv : CumulativeEnv :=
  { events := exampleSeriesEvents
    quizStore := fun e l => if e = 2 ∧ l = "en" then some [demoQuestionA] else none
    cumStore := fun _ _ => none
    cache := fun _ => none
    seriesQueryError := none
    defaultModel := "gpt-4" }

/-- A cached artifact for event 3 of the example series whose membership
snapshot matches the current membership as a set. -/
def cachedOkQuiz : CumulativeQuiz :=
  { eventId := 3
    seriesId := 100
    language := "en"
    model := "gpt-4"
    questions := []
    includedEventIds := [1, 2, 3, 4]
    videoCount := 4
    processingTimeMs := 0 }

/-- A healthy environment over the example series holding cachedOkQuiz in
the memory cache. -/
def cachedOkEnv : CumulativeEnv :=
  { events := exampleSeriesEvents
    quizStore := fun _ _ => none
    cumStore := fun _ _ => none
    cache := fun k => if k = cumulativeCacheKey 3 "en" then some cachedOkQuiz else none
    seriesQueryError := none
    defaultModel := "gpt-4" }

/-- A quiz-endpoint environment with a stored quiz and transcript for
event 7 but an empty memory cache. -/
def storedQuizEnv : QuizEnv :=
  { quizEnabled := true
    quizzes := fun e l => if e = 7 ∧ l = "en" then some [demoQuestionB] else none
    transcripts := fun e l => if e = 7 ∧ l = "en" then some "a transcript" else none
    cache := fun _ => none }

/-- A quiz-endpoint environment with a transcript but neither a cached
nor a stored quiz for event 7. -/
def bareQuizEnv : QuizEnv :=
  { quizEnabled := true
    quizzes := fun _ _ => none
    transcripts := fun e l => if e = 7 ∧ l = "en" then some "a transcript" else none
    cache := fun _ => none }

/-- A quiz-endpoint environment with a cached quiz for event 7. -/
def cachedQuizEnv : QuizEnv :=
  { quizEnabled := true
    quizzes := fun _ _ => none
    transcripts := fun _ _ => none
    cache := fun k => if k = quizCacheKey 7 "en" then some [demoQuestionB] else none }

/-- A summary-endpoint environment with a stored summary for event 7. -/
def storedSummaryEnv : SummaryEnv :=
  { featuresEnabled := true
    summaries := fun e l => if e = 7 ∧ l = "en" then some "stored summary" else none
    transcripts := fun e l => if e = 7 ∧ l = "en" then some "a transcript" else none
    cache := fun _ => none }

/-- A summary-endpoint environment with a transcript but no stored
summary for event 7. -/
def bareSummaryEnv : SummaryEnv :=
  { featuresEnabled := true
    summaries := fun _ _ => none
    transcripts := fun e l => if e = 7 ∧ l = "en" then some "a transcript" else none
    cache := fun _ => none }

/-- The transcript table state after the DE-DE round-trip write. -/
def roundTripDb : TranscriptDb :=
  fun e l => if e = 1 ∧ l = "de-de" then some "hallo" else none

/-- The cumulative artifact generateCumulativeQuiz produces for event 3
of the example series in generatingEnv. -/
def c9DemoQuiz : CumulativeQuiz :=
  { eventId := 3
    seriesId := 100
    language := "en"
    model := "gpt-4"
    questions :=
      [{ question := "What was covered first?"
         questionType := "true_false"
         options := none
         correctAnswer := "true"
         explanation := "see lecture"
         difficulty := "easy"
         videoContext := { eventId := 2, videoTitle := "B", videoNumber := 1,
                           timestamp := some 12 } }]
    includedEventIds := [2, 4, 1, 3]
    videoCount := 4
    processingTimeMs := 0 }

/-- Three members contributing 2, 0 and 3 questions (spec section 8 merge
example), ids deliberately unrelated to positions. -/
def mergeDemoQuizzes : List IndividualQuiz :=
  [⟨501, [demoQuestionA, demoQuestionB]⟩,
   ⟨502, []⟩,
   ⟨503, [demoQuestionA, demoQuestionB, demoQuestionC]⟩]

/-- The member rows aligned with mergeDemoQuizzes. -/
def mergeDemoEvents : List SeriesEvent :=
  [⟨501, "V1", 1⟩, ⟨502, "V2", 2⟩, ⟨503, "V3", 3⟩]

/-- A cumulative artifact stored under the upper-case language "EN". -/
def capitalEnQuiz : CumulativeQuiz :=
  { eventId := 9
    seriesId := 10
    language := "EN"
    model := "gpt-4"
    questions := []
    includedEventIds := [9]
    videoCount := 1
    processingTimeMs := 0 }

/-! ## Helper lemmas -/

/-- Two id lists sort to the same list exactly when they are permutations
of one another. -/
theorem sortIds_eq_iff {a b : List Nat} : sortIds a = sortIds b ↔ List.Perm a b := by
  constructor
  · intro h
    have h1 : List.Perm a (sortIds a) := (List.perm_insertionSort _ a).symm
    have h2 : List.Perm (sortIds b) b := List.perm_insertionSort _ b
    rw [h] at h1
    exact h1.trans h2
  · intro h
    exact List.eq_of_perm_of_sorted
      (((List.perm_insertionSort _ a).trans h).trans (List.perm_insertionSort _ b).symm)
      (List.sorted_insertionSort _ a) (List.sorted_insertionSort _ b)

/-- On duplicate-free id lists, the sorted-comparison of isCacheValid is
exactly order-independent set equality. -/
theorem isCacheValidPure_iff {currentEvents : List SeriesEvent} {quiz : CumulativeQuiz}
    (h1 : (currentEvents.map (fun e => e.id)).Nodup) (h2 : quiz.includedEventIds.Nodup) :
    isCacheValidPure currentEvents quiz = true ↔
      (currentEvents.map (fun e => e.id)).toFinset = quiz.includedEventIds.toFinset := by
  unfold isCacheValidPure
  rw [decide_eq_true_iff, sortIds_eq_iff]
  constructor
  · intro h
    exact List.toFinset_eq_of_perm _ _ h
  · intro h
    exact List.perm_of_nodup_nodup_toFinset_eq h1 h2 h

/-- The regeneration path never reports a cached hit. -/
theorem regenerate_ne_cachedHit (env : CumulativeEnv) (eventId : Nat) (language : String)
    (q : CumulativeQuiz) : regenerate env eventId language ≠ .cachedHit q := by
  unfold regenerate
  split
  · simp
  · split
    · simp
    · split
      · simp
      · split <;> simp

/-- assignPositions preserves ids in order. -/
theorem assignPositions_map_id : ∀ (l : List DbEvent) (n : Nat),
    (assignPositions n l).map (fun e => e.id) = l.map (fun e => e.id)
  | [], _ => rfl
  | _ :: t, n => by simp [assignPositions, assignPositions_map_id t (n + 1)]

/-- Every position assigned from n on is at least n. -/
theorem assignPositions_pos_ge : ∀ (l : List DbEvent) (n : Nat) (x : SeriesEvent),
    x ∈ assignPositions n l → n ≤ x.position := by
  intro l
  induction l with
  | nil => intro n x hx; simp [assignPositions] at hx
  | cons a t ih =>
      intro n x hx
      simp only [assignPositions, List.mem_cons] at hx
      rcases hx with rfl | hx
      · exact le_refl _
      · exact (Nat.le_succ n).trans (ih (n + 1) x hx)

/-- Positions assigned by assignPositions are strictly increasing along
the list. -/
theorem assignPositions_pairwise : ∀ (l : List DbEvent) (n : Nat),
    (assignPositions n l).Pairwise (fun a b => a.position < b.position) := by
  intro l
  induction l with
  | nil => intro n; simp [assignPositions]
  | cons a t ih =>
      intro n
      simp only [assignPositions, List.pairwise_cons]
      refine ⟨fun x hx => ?_, ih (n + 1)⟩
      exact Nat.lt_of_lt_of_le (Nat.lt_succ_self n) (assignPositions_pos_ge t (n + 1) x hx)

/-- The ids listed by orderedEvents are a permutation of the ids of the
eligible rows. -/
theorem orderedEvents_ids_perm (events : List DbEvent) (sid : Nat) :
    List.Perm ((orderedEvents events sid).map (fun e => e.id))
      ((seriesEligible events sid).map (fun e => e.id)) := by
  unfold orderedEvents
  rw [assignPositions_map_id]
  exact (List.perm_insertionSort keyLE (seriesEligible events sid)).map _

/-- Membership in the result of getSeriesEventsUpTo: exactly the ordered
rows whose position is bounded by the position of some row carrying the
target id. -/
theorem mem_getSeriesEventsUpTo {events : List DbEvent} {sid upToEventId : Nat}
    {e : SeriesEvent} :
    e ∈ getSeriesEventsUpTo events sid upToEventId ↔
      e ∈ orderedEvents events sid ∧
        ∃ tgt ∈ orderedEvents events sid,
          tgt.id = upToEventId ∧ e.position ≤ tgt.position := by
  unfold getSeriesEventsUpTo
  simp only [List.mem_flatMap, List.mem_map, List.mem_filter, decide_eq_true_iff]
  constructor
  · rintro ⟨a, ha, x, ⟨⟨tgt, ⟨htgt, hid⟩, rfl⟩, hle⟩, rfl⟩
    exact ⟨ha, tgt, htgt, hid, hle⟩
  · rintro ⟨he, tgt, htgt, hid, hle⟩
    exact ⟨e, he, tgt.position, ⟨⟨tgt, ⟨htgt, hid⟩, rfl⟩, hle⟩, rfl⟩

/-- A flatMap in which every fibre is empty or the singleton of its
element is a sublist of the base list. -/
theorem flatMap_single_sublist {α : Type} {l : List α} {f : α → List α}
    (h : ∀ a ∈ l, f a = [] ∨ f a = [a]) : List.Sublist (l.flatMap f) l := by
  induction l with
  | nil => simp
  | cons a t ih =>
      have ht : ∀ x ∈ t, f x = [] ∨ f x = [x] := fun x hx => h x (List.mem_cons_of_mem a hx)
      rcases h a (List.mem_cons_self a t) with ha | ha
      · simpa [List.flatMap_cons, ha] using (ih ht).cons a
      · simpa [List.flatMap_cons, ha] using (ih ht).cons₂ a

/-- In a list whose images under g are duplicate-free, filtering for one
image value keeps at most one element. -/
theorem length_filter_image_le_one {α β : Type} [DecidableEq β] {g : α → β} {l : List α}
    (h : (l.map g).Nodup) (v : β) :
    (l.filter (fun a => decide (g a = v))).length ≤ 1 := by
  induction l with
  | nil => simp
  | cons a t ih =>
      simp only [List.map_cons, List.nodup_cons] at h
      by_cases hv : g a = v
      · have ht : t.filter (fun a => decide (g a = v)) = [] := by
          rw [List.filter_eq_nil_iff]
          intro x hx
          simp only [decide_eq_true_iff]
          intro hxv
          exact h.1 (hv ▸ hxv ▸ List.mem_map_of_mem g hx)
        simp [List.filter_cons, hv, ht]
      · simpa [List.filter_cons, hv] using ih h.2

/-- Under duplicate-free ids, the result of getSeriesEventsUpTo is a
sublist of the ordered member list. -/
theorem getSeriesEventsUpTo_sublist {events : List DbEvent} {sid upToEventId : Nat}
    (h : ((orderedEvents events sid).map (fun e => e.id)).Nodup) :
    List.Sublist (getSeriesEventsUpTo events sid upToEventId)
      (orderedEvents events sid) := by
  unfold getSeriesEventsUpTo
  apply flatMap_single_sublist
  intro a _
  have hlen := length_filter_image_le_one h upToEventId
  set targets := ((orderedEvents events sid).filter
    (fun e => decide (e.id = upToEventId))).map (fun e => e.position) with htargets
  have hlen2 : targets.length ≤ 1 := by
    rw [htargets, List.length_map]
    exact hlen
  rcases targets with _ | ⟨p, _ | ⟨q, r⟩⟩
  · left; rfl
  · by_cases hp : a.position ≤ p
    · right; simp [List.filter_cons, hp]
    · left; simp [List.filter_cons, hp]
  · simp at hlen2

/-- Positions in the result of getSeriesEventsUpTo are strictly
increasing, assuming duplicate-free ids among the ordered members. -/
theorem getSeriesEventsUpTo_pairwise {events : List DbEvent} {sid upToEventId : Nat}
    (h : ((orderedEvents events sid).map (fun e => e.id)).Nodup) :
    (getSeriesEventsUpTo events sid upToEventId).Pairwise
      (fun a b => a.position < b.position) := by
  have hp : (orderedEvents events sid).Pairwise (fun a b => a.position < b.position) :=
    assignPositions_pairwise _ 1
  exact hp.sublist (getSeriesEventsUpTo_sublist h)

/-- Every merged question points back at one of the member rows, carrying
its id, title and position in the videoContext tag. -/
theorem combineQuizzes_context : ∀ (qs : List IndividualQuiz) (es : List SeriesEvent)
    (q : CumulativeQuizQuestion), q ∈ combineQuizzes qs es →
    ∃ e ∈ es, q.videoContext.eventId = e.id ∧ q.videoContext.videoTitle = e.title ∧
      q.videoContext.videoNumber = e.position := by
  intro qs
  induction qs with
  | nil => intro es q hq; cases es <;> simp [combineQuizzes] at hq
  | cons a t ih =>
      intro es q hq
      cases es with
      | nil => simp [combineQuizzes] at hq
      | cons e rest =>
          simp only [combineQuizzes, List.mem_append, List.mem_map] at hq
          rcases hq with ⟨sq, _, rfl⟩ | hq
          · exact ⟨e, List.mem_cons_self e rest, rfl, rfl, rfl⟩
          · obtain ⟨e2, he2, hctx⟩ := ih rest q hq
            exact ⟨e2, List.mem_cons_of_mem e he2, hctx⟩

/-- Untagging the merged questions recovers the concatenation of the
member question lists, in member order, when the two lists are aligned. -/
theorem combineQuizzes_untag : ∀ (qs : List IndividualQuiz) (es : List SeriesEvent),
    qs.length = es.length →
    (combineQuizzes qs es).map untagQuestion = (qs.map (fun q => q.questions)).flatten := by
  intro qs
  induction qs with
  | nil => intro es h; cases es <;> simp [combineQuizzes] at h ⊢
  | cons a t ih =>
      intro es h
      cases es with
      | nil => simp at h
      | cons e rest =>
          simp only [List.length_cons, Nat.succ.injEq] at h
          simp only [combineQuizzes, List.map_append, List.map_cons, List.flatten,
            ih rest h, List.map_map]
          congr 1
          ext sq
          simp [untagQuestion, tagQuestion]

/-- If no aligned member with the given id contributes any question, the
merged output contains no question tagged with that id. -/
theorem combineQuizzes_no_contribution : ∀ (es : List SeriesEvent)
    (f : SeriesEvent → IndividualQuiz) (mid : Nat),
    (∀ e ∈ es, e.id = mid → (f e).questions = []) →
    (combineQuizzes (es.map f) es).filter
      (fun q => decide (q.videoContext.eventId = mid)) = [] := by
  intro es
  induction es with
  | nil => intro f mid _; rfl
  | cons e rest ih =>
      intro f mid h
      simp only [List.map_cons, combineQuizzes, List.filter_append]
      rw [ih f mid (fun x hx => h x (List.mem_cons_of_mem e hx))]
      by_cases hid : e.id = mid
      · rw [h e (List.mem_cons_self e rest) hid]
        rfl
      · rw [List.append_nil, List.filter_eq_nil_iff]
        intro q hq
        simp only [List.mem_map] at hq
        obtain ⟨sq, _, rfl⟩ := hq
        simpa [tagQuestion] using hid

/-- Appending to a fixed string on the left is injective. -/
theorem string_append_left_cancel {s a b : String} (h : s ++ a = s ++ b) : a = b := by
  have hd := congrArg String.data h
  simp only [String.data_append] at hd
  exact String.ext (List.append_cancel_left hd)

/-- Cumulative cache keys for the same event and different languages are
different. -/
theorem cumulativeCacheKey_inj {eventId : Nat} {l1 l2 : String}
    (h : cumulativeCacheKey eventId l1 = cumulativeCacheKey eventId l2) : l1 = l2 := by
  unfold cumulativeCacheKey at h
  exact string_append_left_cancel h

/-- A generated outcome always comes from the regeneration path. -/
theorem generated_eq_regenerate {env : CumulativeEnv} {eventId : Nat} {language : String}
    {force : Bool} {q : CumulativeQuiz}
    (h : generateCumulativeQuiz env eventId language force = .generated q) :
    regenerate env eventId language = .generated q := by
  unfold generateCumulativeQuiz at h
  split at h
  · exact h
  · split at h
    · split at h
      · exact absurd h (by simp)
      · exact h
    · exact h

/-- Structure of a freshly regenerated artifact: it is built from the
computed series membership. -/
theorem regenerate_generated_shape {env : CumulativeEnv} {eventId : Nat} {language : String}
    {q : CumulativeQuiz} (h : regenerate env eventId language = .generated q) :
    ∃ sid, ∃ seriesEvents : List SeriesEvent,
      fetchMembers env sid eventId = .ok seriesEvents ∧ seriesEvents ≠ [] ∧
      q.questions = combineQuizzes
        (seriesEvents.map (fun e => getOrGenerateIndividualQuiz env.quizStore e.id language))
        seriesEvents ∧
      q.includedEventIds = seriesEvents.map (fun e => e.id) ∧
      q.videoCount = seriesEvents.length := by
  unfold regenerate at h
  split at h
  · exact absurd h (by simp)
  · split at h
    · exact absurd h (by simp)
    · rename_i sid _
      split at h
      · exact absurd h (by simp)
      · rename_i seriesEvents hfetch
        split at h
        · exact absurd h (by simp)
        · rename_i hne
          injection h with h2
          subst h2
          exact ⟨sid, seriesEvents, hfetch, hne, rfl, rfl, rfl⟩

/-- Whether regeneration fails does not depend on the per-event quiz
store: a missing member quiz never turns generation into a failure. -/
theorem regenerate_quizStore_irrel (env : CumulativeEnv)
    (qs2 : Nat → String → Option (List SourceQuestion)) (eventId : Nat)
    (language : String) :
    isFailedOutcome (regenerate { env with quizStore := qs2 } eventId language) =
      isFailedOutcome (regenerate env eventId language) := by
  have h1 : ({ env with quizStore := qs2 } : CumulativeEnv).events = env.events := rfl
  have h2 : ({ env with quizStore := qs2 } : CumulativeEnv).seriesQueryError =
      env.seriesQueryError := rfl
  unfold regenerate fetchMembers
  rw [h1, h2]
  rcases hfind : env.events.find?
      (fun e => decide (e.id = eventId ∧ e.seriesId ≠ none ∧ e.state = "ready")) with _ | ev
  · simp only [hfind]
  · simp only [hfind]
    rcases hs : ev.seriesId with _ | sid
    · simp only [hs]
    · simp only [hs]
      rcases herr : env.seriesQueryError with _ | msg
      · simp only [herr]
        by_cases hemp : getSeriesEventsUpTo env.events sid eventId = [] <;>
          simp [hemp, isFailedOutcome]
      · simp only [herr]

/-- Every merged question is tagged from the aligned (quiz, member) pair
it came from. -/
theorem combineQuizzes_context_zip : ∀ (qs : List IndividualQuiz) (es : List SeriesEvent)
    (q : CumulativeQuizQuestion), q ∈ combineQuizzes qs es →
    ∃ p ∈ qs.zip es, q.videoContext.eventId = p.2.id ∧
      q.videoContext.videoTitle = p.2.title ∧ q.videoContext.videoNumber = p.2.position := by
  intro qs
  induction qs with
  | nil => intro es q hq; cases es <;> simp [combineQuizzes] at hq
  | cons a t ih =>
      intro es q hq
      cases es with
      | nil => simp [combineQuizzes] at hq
      | cons e rest =>
          simp only [combineQuizzes, List.mem_append, List.mem_map] at hq
          rcases hq with ⟨sq, _, rfl⟩ | hq
          · exact ⟨(a, e), List.mem_cons_self _ _, rfl, rfl, rfl⟩
          · obtain ⟨p, hp, hctx⟩ := ih rest q hq
            exact ⟨p, List.mem_cons_of_mem _ hp, hctx⟩

/-! ## Claim theorems -/

/-- C3: for aligned member and question lists, combineQuizzes returns the
concatenation of the member question lists in member order (untagging the
output recovers the flattened input exactly, so nothing is dropped,
duplicated or reordered), the output length is the sum of the per-member
counts, and every output question carries a videoContext built from the
contributing member: its id, title and position. -/
theorem combineQuizzes_merge_fidelity : ∀ (qs : List IndividualQuiz)
    (es : List SeriesEvent), qs.length = es.length →
    (combineQuizzes qs es).map untagQuestion = (qs.map (fun q => q.questions)).flatten ∧
    (combineQuizzes qs es).length = (qs.map (fun q => q.questions.length)).sum ∧
    ∀ q ∈ combineQuizzes qs es, ∃ p ∈ qs.zip es,
      q.videoContext.eventId = p.2.id ∧ q.videoContext.videoTitle = p.2.title ∧
      q.videoContext.videoNumber = p.2.position := by
  intro qs es h
  refine ⟨combineQuizzes_untag qs es h, ?_, fun q hq => combineQuizzes_context_zip qs es q hq⟩
  have hl := congrArg List.length (combineQuizzes_untag qs es h)
  simpa [Function.comp] using hl

/-- Witness for C3 at the 2, 0, 3 example: three members, five merged
questions, tagged by member position. -/
theorem combineQuizzes_merge_fidelity_witness :
    mergeDemoQuizzes.length = mergeDemoEvents.length ∧
    ((combineQuizzes mergeDemoQuizzes mergeDemoEvents).map untagQuestion =
        (mergeDemoQuizzes.map (fun q => q.questions)).flatten ∧
      (combineQuizzes mergeDemoQuizzes mergeDemoEvents).length =
        (mergeDemoQuizzes.map (fun q => q.questions.length)).sum ∧
      ∀ q ∈ combineQuizzes mergeDemoQuizzes mergeDemoEvents,
        ∃ p ∈ mergeDemoQuizzes.zip mergeDemoEvents,
          q.videoContext.eventId = p.2.id ∧ q.videoContext.videoTitle = p.2.title ∧
          q.videoContext.videoNumber = p.2.position) :=
  ⟨by decide, combineQuizzes_merge_fidelity mergeDemoQuizzes mergeDemoEvents (by decide)⟩

/-- C5 counterexample: a store I/O error raised while validating the
cached artifact is not propagated.  isCacheValid catches it and returns
false, and the composer run over an environment whose membership query
always fails ends in a different error (the event lookup), not the
validation store error. -/
theorem isCacheValid_error_counterexample :
    isCacheValid (Except.error "connection refused") demoCumulativeQuiz = false ∧
    generateCumulativeQuiz erroringEnv 5 "en" false =
      .failed "Event not found or not part of a series" :=
  ⟨rfl, by decide⟩

/-- C5 amended: a store error raised inside the validation step is caught
by isCacheValid and converted into a cache-invalid outcome (false), so
the composer falls through to regeneration instead of returning the
cached artifact or propagating the validation error. -/
theorem isCacheValid_error_amended : ∀ (msg : String) (q : CumulativeQuiz)
    (env : CumulativeEnv) (eventId : Nat) (language : String) (cached : CumulativeQuiz),
    isCacheValid (Except.error msg) q = false ∧
    (env.seriesQueryError = some msg → getCachedQuiz env eventId language = some cached →
      generateCumulativeQuiz env eventId language false =
        regenerate env eventId language) := by
  intro msg q env eventId language cached
  refine ⟨rfl, fun herr hcache => ?_⟩
  unfold generateCumulativeQuiz
  have hfetch : fetchMembers env cached.seriesId cached.eventId = .error msg := by
    unfold fetchMembers; rw [herr]
  simp [hcache, hfetch, isCacheValid]

/-- Witness for C5 amended at the erroring environment. -/
theorem isCacheValid_error_amended_witness :
    isCacheValid (Except.error "connection refused") capitalEnQuiz = false ∧
    generateCumulativeQuiz erroringEnv 5 "en" false = regenerate erroringEnv 5 "en" := by
  have h := isCacheValid_error_amended "connection refused" capitalEnQuiz erroringEnv
    5 "en" demoCumulativeQuiz
  exact ⟨h.1, h.2 rfl rfl⟩

/-- C7: a series member whose per-event quiz is absent from the store
contributes an empty question list (no generator call is modelled in
getOrGenerateIndividualQuiz, matching the source), no merged question is
tagged with that member, and whether regeneration fails is independent of
the per-event quiz store, so the absence never fails the composer. -/
theorem missingMemberQuiz_contributes_nothing :
    ∀ (quizStore : Nat → String → Option (List SourceQuestion)) (language : String)
    (es : List SeriesEvent) (m : SeriesEvent) (env : CumulativeEnv)
    (qs2 : Nat → String → Option (List SourceQuestion)) (eventId : Nat),
    quizStore m.id language = none →
    getOrGenerateIndividualQuiz quizStore m.id language = ⟨m.id, []⟩ ∧
    (combineQuizzes
        (es.map (fun e => getOrGenerateIndividualQuiz quizStore e.id language)) es).filter
      (fun q => decide (q.videoContext.eventId = m.id)) = [] ∧
    isFailedOutcome (regenerate { env with quizStore := qs2 } eventId language) =
      isFailedOutcome (regenerate env eventId language) := by
  intro quizStore language es m env qs2 eventId hnone
  refine ⟨?_, ?_, regenerate_quizStore_irrel env qs2 eventId language⟩
  · unfold getOrGenerateIndividualQuiz
    rw [hnone]
  · apply combineQuizzes_no_contribution
    intro e _ hid
    simp [getOrGenerateIndividualQuiz, hid, hnone]

/-- Witness for C7: in generatingEnv, member 1 (title A, position 3) has
no stored quiz and contributes no question. -/
theorem missingMemberQuiz_contributes_nothing_witness :
    getOrGenerateIndividualQuiz generatingEnv.quizStore
        (SeriesEvent.mk 1 "A" 3).id "en" = ⟨(SeriesEvent.mk 1 "A" 3).id, []⟩ ∧
    (combineQuizzes
        ((getSeriesEventsUpTo exampleSeriesEvents 100 3).map
          (fun e => getOrGenerateIndividualQuiz generatingEnv.quizStore e.id "en"))
        (getSeriesEventsUpTo exampleSeriesEvents 100 3)).filter
      (fun q => decide (q.videoContext.eventId = (SeriesEvent.mk 1 "A" 3).id)) = [] ∧
    isFailedOutcome
        (regenerate { generatingEnv with quizStore := fun _ _ => none } 3 "en") =
      isFailedOutcome (regenerate generatingEnv 3 "en") :=
  missingMemberQuiz_contributes_nothing generatingEnv.quizStore "en"
    (getSeriesEventsUpTo exampleSeriesEvents 100 3) (SeriesEvent.mk 1 "A" 3)
    generatingEnv (fun _ _ => none) 3 (by decide)

/-- C9: every freshly generated cumulative artifact has a non-empty
includedEventIds, videoCount equal to its length, and every question
points back (through videoContext.eventId) into includedEventIds. -/
theorem cumulative_invariant : ∀ (env : CumulativeEnv) (eventId : Nat)
    (language : String) (force : Bool) (q : CumulativeQuiz),
    generateCumulativeQuiz env eventId language force = .generated q →
    q.includedEventIds ≠ [] ∧ q.videoCount = q.includedEventIds.length ∧
    ∀ qu ∈ q.questions, qu.videoContext.eventId ∈ q.includedEventIds := by
  intro env eventId language force q h
  obtain ⟨sid, seriesEvents, _, hne, hq, hids, hcount⟩ :=
    regenerate_generated_shape (generated_eq_regenerate h)
  refine ⟨?_, ?_, ?_⟩
  · rw [hids]
    simpa using hne
  · rw [hcount, hids, List.length_map]
  · intro qu hqu
    rw [hq] at hqu
    obtain ⟨e, he, hid, _, _⟩ := combineQuizzes_context _ _ qu hqu
    rw [hids, hid]
    exact List.mem_map_of_mem _ he

/-- Witness for C9 at the concrete generation over the example series. -/
theorem cumulative_invariant_witness :
    c9DemoQuiz.includedEventIds ≠ [] ∧
    c9DemoQuiz.videoCount = c9DemoQuiz.includedEventIds.length ∧
    ∀ qu ∈ c9DemoQuiz.questions, qu.videoContext.eventId ∈ c9DemoQuiz.includedEventIds :=
  cumulative_invariant generatingEnv 3 "en" false c9DemoQuiz (by decide)

/-- C10: the cumulative-quiz operations use the language verbatim: for a
different language string (for example a different casing) the cache key
differs, the saved store row is invisible, the cache entry is invisible,
getCachedQuiz is unaffected, while the original language still hits. -/
theorem cumulative_language_verbatim : ∀ (env : CumulativeEnv) (q : CumulativeQuiz)
    (l2 : String), q.language ≠ l2 →
    cumulativeCacheKey q.eventId q.language ≠ cumulativeCacheKey q.eventId l2 ∧
    (saveCumulativeQuiz env q).cumStore q.eventId l2 = env.cumStore q.eventId l2 ∧
    (saveCumulativeQuiz env q).cache (cumulativeCacheKey q.eventId l2) =
      env.cache (cumulativeCacheKey q.eventId l2) ∧
    getCachedQuiz (saveCumulativeQuiz env q) q.eventId l2 =
      getCachedQuiz env q.eventId l2 ∧
    getCachedQuiz (saveCumulativeQuiz env q) q.eventId q.language = some q := by
  intro env q l2 hne
  have hkey : cumulativeCacheKey q.eventId q.language ≠ cumulativeCacheKey q.eventId l2 :=
    fun h => hne (cumulativeCacheKey_inj h)
  have hstore : (saveCumulativeQuiz env q).cumStore q.eventId l2 =
      env.cumStore q.eventId l2 := by
    show (if q.eventId = q.eventId ∧ l2 = q.language then some q
      else env.cumStore q.eventId l2) = env.cumStore q.eventId l2
    rw [if_neg]
    rintro ⟨_, hl⟩
    exact hne hl.symm
  have hcache : (saveCumulativeQuiz env q).cache (cumulativeCacheKey q.eventId l2) =
      env.cache (cumulativeCacheKey q.eventId l2) := by
    show (if cumulativeCacheKey q.eventId l2 = cumulativeCacheKey q.eventId q.language
      then some q else env.cache (cumulativeCacheKey q.eventId l2)) =
      env.cache (cumulativeCacheKey q.eventId l2)
    rw [if_neg]
    intro h
    exact hkey h.symm
  have hown : (saveCumulativeQuiz env q).cache
      (cumulativeCacheKey q.eventId q.language) = some q := by
    show (if cumulativeCacheKey q.eventId q.language = cumulativeCacheKey q.eventId q.language
      then some q else env.cache (cumulativeCacheKey q.eventId q.language)) = some q
    rw [if_pos rfl]
  refine ⟨hkey, hstore, hcache, ?_, ?_⟩
  · unfold getCachedQuiz
    rw [hcache, hstore]
  · unfold getCachedQuiz
    rw [hown]

/-- Witness for C10: "EN" and "en" address distinct cache entries and
store rows. -/
theorem cumulative_language_verbatim_witness :
    cumulativeCacheKey capitalEnQuiz.eventId capitalEnQuiz.language ≠
      cumulativeCacheKey capitalEnQuiz.eventId "en" ∧
    (saveCumulativeQuiz generatingEnv capitalEnQuiz).cumStore
        capitalEnQuiz.eventId "en" = generatingEnv.cumStore capitalEnQuiz.eventId "en" ∧
    (saveCumulativeQuiz generatingEnv capitalEnQuiz).cache
        (cumulativeCacheKey capitalEnQuiz.eventId "en") =
      generatingEnv.cache (cumulativeCacheKey capitalEnQuiz.eventId "en") ∧
    getCachedQuiz (saveCumulativeQuiz generatingEnv capitalEnQuiz)
        capitalEnQuiz.eventId "en" =
      getCachedQuiz generatingEnv capitalEnQuiz.eventId "en" ∧
    getCachedQuiz (saveCumulativeQuiz generatingEnv capitalEnQuiz)
        capitalEnQuiz.eventId capitalEnQuiz.language = some capitalEnQuiz :=
  cumulative_language_verbatim generatingEnv capitalEnQuiz "en" (by decide)

/-- C8 counterexample: hasSummary is a store operation that, invoked with
a missing language, does not fail with a validation error: the JavaScript
default parameter silently substitutes "en" and the store is read. -/
theorem hasSummary_missing_language_counterexample :
    hasSummaryDb (fun _ _ => none) 1 none = .ok false := rfl

/-- C8 amended: language codes are normalized before every transcript
lookup and write, so any two spellings normalizing alike round-trip
(write one, read the other, same content); getTranscript and
saveTranscript invoked with a missing or empty language fail with the
validation error before any store access; but hasSummary applies the
silent default "en" when the language is omitted. -/
theorem language_normalization_amended : ∀ (db : TranscriptDb)
    (sdb : Nat → String → Option String) (eventId : Nat) (content : String)
    (l1 l2 : Option String) (nl : String) (db2 : TranscriptDb),
    normalizeLanguageCode l1 = .ok nl → normalizeLanguageCode l2 = .ok nl →
    saveTranscriptDb db eventId l1 content = .ok db2 →
    getTranscriptDb db2 eventId l2 = .ok (some content) ∧
    getTranscriptDb db eventId none = .error languageRequiredMsg ∧
    saveTranscriptDb db eventId none content = .error languageRequiredMsg ∧
    getTranscriptDb db eventId (some "") = .error languageRequiredMsg ∧
    saveTranscriptDb db eventId (some "") content = .error languageRequiredMsg ∧
    hasSummaryDb sdb eventId none = .ok ((sdb eventId "en").isSome) := by
  intro db sdb eventId content l1 l2 nl db2 h1 h2 hsave
  refine ⟨?_, rfl, rfl, rfl, rfl, rfl⟩
  unfold saveTranscriptDb at hsave
  rw [h1] at hsave
  injection hsave with hdb2
  unfold getTranscriptDb
  rw [h2, ← hdb2]
  simp [Except.map]

/-- Witness for C8 amended: the DE-DE / de-de round trip. -/
theorem language_normalization_amended_witness :
    (normalizeLanguageCode (some "DE-DE") = .ok "de-de") ∧
    (normalizeLanguageCode (some "de-de") = .ok "de-de") ∧
    (saveTranscriptDb (fun _ _ => none) 1 (some "DE-DE") "hallo" = .ok roundTripDb) ∧
    (getTranscriptDb roundTripDb 1 (some "de-de") = .ok (some "hallo") ∧
      getTranscriptDb (fun _ _ => none) 1 none = .error languageRequiredMsg ∧
      saveTranscriptDb (fun _ _ => none) 1 none "hallo" = .error languageRequiredMsg ∧
      getTranscriptDb (fun _ _ => none) 1 (some "") = .error languageRequiredMsg ∧
      saveTranscriptDb (fun _ _ => none) 1 (some "") "hallo" =
        .error languageRequiredMsg ∧
      hasSummaryDb (fun _ _ => none) 1 none =
        .ok (((fun _ _ => none : Nat → String → Option String) 1 "en").isSome)) :=
  ⟨rfl, rfl, rfl,
    language_normalization_amended (fun _ _ => none) (fun _ _ => none) 1 "hallo"
      (some "DE-DE") (some "de-de") "de-de" roundTripDb rfl rfl rfl⟩

/-- C1: with forceRegenerate false and a cached artifact present, the
composer returns it unchanged exactly when the recomputed membership ids
equal the snapshot ids as an order-independent set; any difference makes
the call fall through to regeneration.  The duplicate-free hypotheses
hold for artifacts the system itself stores, whose ids come from primary
keys. -/
theorem cumulative_cache_validity : ∀ (env : CumulativeEnv) (eventId : Nat)
    (language : String) (q : CumulativeQuiz),
    getCachedQuiz env eventId language = some q →
    env.seriesQueryError = none →
    ((getSeriesEventsUpTo env.events q.seriesId q.eventId).map (fun e => e.id)).Nodup →
    q.includedEventIds.Nodup →
    (generateCumulativeQuiz env eventId language false = .cachedHit q ↔
      ((getSeriesEventsUpTo env.events q.seriesId q.eventId).map
          (fun e => e.id)).toFinset = q.includedEventIds.toFinset) ∧
    (((getSeriesEventsUpTo env.events q.seriesId q.eventId).map
          (fun e => e.id)).toFinset ≠ q.includedEventIds.toFinset →
      generateCumulativeQuiz env eventId language false =
        regenerate env eventId language) := by
  intro env eventId language q hcache herr hn1 hn2
  have hfetch : fetchMembers env q.seriesId q.eventId =
      .ok (getSeriesEventsUpTo env.events q.seriesId q.eventId) := by
    unfold fetchMembers
    rw [herr]
  have hred : generateCumulativeQuiz env eventId language false =
      (if isCacheValidPure (getSeriesEventsUpTo env.events q.seriesId q.eventId) q
        then .cachedHit q else regenerate env eventId language) := by
    unfold generateCumulativeQuiz
    simp [hcache, hfetch, isCacheValid]
  by_cases hv : isCacheValidPure (getSeriesEventsUpTo env.events q.seriesId q.eventId) q
      = true
  · have hset := (isCacheValidPure_iff hn1 hn2).mp hv
    rw [hred, if_pos hv]
    exact ⟨⟨fun _ => hset, fun _ => rfl⟩, fun hne => absurd hset hne⟩
  · have hset : ¬ ((getSeriesEventsUpTo env.events q.seriesId q.eventId).map
        (fun e => e.id)).toFinset = q.includedEventIds.toFinset :=
      fun hs => hv ((isCacheValidPure_iff hn1 hn2).mpr hs)
    rw [hred, if_neg hv]
    refine ⟨⟨fun habs => absurd habs (regenerate_ne_cachedHit env eventId language q),
      fun hs => absurd hs hset⟩, fun _ => rfl⟩

/-- Witness for C1: a cached artifact whose snapshot matches the current
membership in a different order is returned unchanged. -/
theorem cumulative_cache_validity_witness :
    generateCumulativeQuiz cachedOkEnv 3 "en" false = .cachedHit cachedOkQuiz :=
  (cumulative_cache_validity cachedOkEnv 3 "en" cachedOkQuiz (by decide) rfl
    (by decide) (by decide)).1.mpr (by decide)

/-- C2 counterexample: the claimed rule (subjects lacking an orderHint
always after all subjects that have one) disagrees with the code.  The
SQL maps a missing hint to the sentinel 999999, so the hinted event 1
(hint 1000000) sorts after the hintless event 2, and membership up to
event 2 is [2] rather than the [1, 2] the claimed rule produces. -/
theorem ordering_sentinel_counterexample :
    getSeriesEventsUpTo sentinelCexEvents 10 2 ≠
      specMembersUpTo sentinelCexEvents 10 2 := by decide

/-- C2 amended: membership is the set of ready series members whose
position is at most a target position, ascending by position, where
positions are assigned by sorting on (orderHint when present, else the
sentinel 999999, then createdAt); hence hintless subjects sort after
exactly the subjects whose hint is below the sentinel, and the spec
example B, D, A, C still holds. -/
theorem ordering_amended : ∀ (events : List DbEvent) (sid upToEventId : Nat)
    (e : SeriesEvent),
    ((orderedEvents events sid).map (fun x => x.id)).Nodup →
    List.Sorted keyLE ((seriesEligible events sid).insertionSort keyLE) ∧
    List.Perm ((orderedEvents events sid).map (fun x => x.id))
      ((seriesEligible events sid).map (fun x => x.id)) ∧
    (getSeriesEventsUpTo events sid upToEventId).Pairwise
      (fun a b => a.position < b.position) ∧
    (e ∈ getSeriesEventsUpTo events sid upToEventId ↔
      e ∈ orderedEvents events sid ∧
        ∃ tgt ∈ orderedEvents events sid, tgt.id = upToEventId ∧
          e.position ≤ tgt.position) ∧
    (getSeriesEventsUpTo exampleSeriesEvents 100 3).map (fun x => (x.id, x.position)) =
      [(2, 1), (4, 2), (1, 3), (3, 4)] := by
  intro events sid upToEventId e hn
  exact ⟨List.sorted_insertionSort keyLE _, orderedEvents_ids_perm events sid,
    getSeriesEventsUpTo_pairwise hn, mem_getSeriesEventsUpTo, by decide⟩

/-- Witness for C2 amended at the spec ordering example. -/
theorem ordering_amended_witness :
    List.Sorted keyLE ((seriesEligible exampleSeriesEvents 100).insertionSort keyLE) ∧
    List.Perm ((orderedEvents exampleSeriesEvents 100).map (fun x => x.id))
      ((seriesEligible exampleSeriesEvents 100).map (fun x => x.id)) ∧
    (getSeriesEventsUpTo exampleSeriesEvents 100 3).Pairwise
      (fun a b => a.position < b.position) ∧
    (SeriesEvent.mk 2 "B" 1 ∈ getSeriesEventsUpTo exampleSeriesEvents 100 3 ↔
      SeriesEvent.mk 2 "B" 1 ∈ orderedEvents exampleSeriesEvents 100 ∧
        ∃ tgt ∈ orderedEvents exampleSeriesEvents 100, tgt.id = 3 ∧
          (SeriesEvent.mk 2 "B" 1).position ≤ tgt.position) ∧
    (getSeriesEventsUpTo exampleSeriesEvents 100 3).map (fun x => (x.id, x.position)) =
      [(2, 1), (4, 2), (1, 3), (3, 4)] :=
  ordering_amended exampleSeriesEvents 100 3 (SeriesEvent.mk 2 "B" 1) (by decide)

/-- C4 counterexample: the quiz endpoint never consults the persistent
store: with an empty memory cache, a stored quiz for (7, en) and a
transcript present, the generator is still invoked. -/
theorem cacheAside_counterexample :
    storedQuizEnv.quizzes 7 "en" = some [demoQuestionB] ∧
    (quizEndpoint storedQuizEnv (Except.ok [demoQuestionC]) 7 "en"
        false).generatorInvoked = true :=
  ⟨by decide, by decide⟩

/-- C4 amended: with forceRegenerate false, the summary endpoint checks
only the persistent store — a store hit is returned flagged without
populating the in-memory cache, and the generator runs exactly when the
store misses and a transcript exists; the quiz endpoint checks only the
in-memory cache — a hit is returned flagged, and the generator runs
exactly when the cache misses and a transcript exists, regardless of the
store contents. -/
theorem cacheAside_amended : ∀ (envS : SummaryEnv) (envQ : QuizEnv)
    (genS : Except String String) (genQ : Except String (List SourceQuestion))
    (eventId : Nat) (language nl : String) (s : String) (qd : List SourceQuestion),
    envS.featuresEnabled = true → envQ.quizEnabled = true →
    normalizeLanguageCode (some language) = .ok nl →
    ((summaryEndpoint envS genS eventId language false).generatorInvoked = true ↔
      envS.summaries eventId nl = none ∧
        (envS.transcripts eventId nl).isSome = true) ∧
    (envS.summaries eventId nl = some s →
      summaryEndpoint envS genS eventId language false =
        ⟨.storeHit s, envS.summaries, envS.cache, 0, 0, false⟩) ∧
    ((quizEndpoint envQ genQ eventId language false).generatorInvoked = true ↔
      envQ.cache (quizCacheKey eventId language) = none ∧
        (envQ.transcripts eventId nl).isSome = true) ∧
    (envQ.cache (quizCacheKey eventId language) = some qd →
      quizEndpoint envQ genQ eventId language false =
        ⟨.cacheHit qd, envQ.quizzes, envQ.cache, 0, 0, false⟩) := by
  intro envS envQ genS genQ eventId language nl s qd hf hq hnorm
  refine ⟨?_, ?_, ?_, ?_⟩
  · unfold summaryEndpoint
    rcases hsum : envS.summaries eventId nl with _ | s0
    · rcases htr : envS.transcripts eventId nl with _ | t
      · simp [hf, hnorm, hsum, htr]
      · cases genS <;> simp [hf, hnorm, hsum, htr]
    · simp [hf, hnorm, hsum]
  · intro hsum
    unfold summaryEndpoint
    simp [hf, hnorm, hsum]
  · unfold quizEndpoint
    rcases hc : envQ.cache (quizCacheKey eventId language) with _ | q0
    · rcases htr : envQ.transcripts eventId nl with _ | t
      · simp [hq, hnorm, hc, htr]
      · cases genQ <;> simp [hq, hnorm, hc, htr]
    · simp [hq, hc]
  · intro hc
    unfold quizEndpoint
    simp [hq, hc]

/-- Witness for C4 amended: a summary store hit returned flagged without
cache population, and a quiz cache hit returned flagged. -/
theorem cacheAside_amended_witness :
    ((summaryEndpoint storedSummaryEnv (Except.ok "fresh") 7 "en"
        false).generatorInvoked = true ↔
      storedSummaryEnv.summaries 7 "en" = none ∧
        (storedSummaryEnv.transcripts 7 "en").isSome = true) ∧
    (summaryEndpoint storedSummaryEnv (Except.ok "fresh") 7 "en" false =
      ⟨.storeHit "stored summary", storedSummaryEnv.summaries,
        storedSummaryEnv.cache, 0, 0, false⟩) ∧
    ((quizEndpoint cachedQuizEnv (Except.ok [demoQuestionC]) 7 "en"
        false).generatorInvoked = true ↔
      cachedQuizEnv.cache (quizCacheKey 7 "en") = none ∧
        (cachedQuizEnv.transcripts 7 "en").isSome = true) ∧
    (quizEndpoint cachedQuizEnv (Except.ok [demoQuestionC]) 7 "en" false =
      ⟨.cacheHit [demoQuestionB], cachedQuizEnv.quizzes,
        cachedQuizEnv.cache, 0, 0, false⟩) := by
  have h := cacheAside_amended storedSummaryEnv cachedQuizEnv (Except.ok "fresh")
    (Except.ok [demoQuestionC]) 7 "en" "en" "stored summary" [demoQuestionB]
    rfl rfl rfl
  exact ⟨h.1, h.2.1 (by decide), h.2.2.1, h.2.2.2 (by decide)⟩

/-- C6: on both generate endpoints a generator failure surfaces the
underlying message as the 500 response and leaves the store and cache
untouched (zero writes, post-state equal to pre-state); a successful
generation performs exactly one store write and one cache write; a
summary store hit or a quiz cache hit performs zero writes. -/
theorem write_discipline : ∀ (envS envS2 : SummaryEnv) (envQ envQ2 : QuizEnv)
    (eventId : Nat) (language : String) (force : Bool) (m c : String)
    (genS : Except String String) (genQ : Except String (List SourceQuestion))
    (qd : List SourceQuestion) (s : String) (qc : List SourceQuestion),
    ((summaryEndpoint envS (.error m) eventId language force).generatorInvoked = true →
      summaryEndpoint envS (.error m) eventId language force =
        ⟨.serverError m, envS.summaries, envS.cache, 0, 0, true⟩) ∧
    ((summaryEndpoint envS (.ok c) eventId language force).generatorInvoked = true →
      (summaryEndpoint envS (.ok c) eventId language force).outcome = .generated c ∧
      (summaryEndpoint envS (.ok c) eventId language force).storeWrites = 1 ∧
      (summaryEndpoint envS (.ok c) eventId language force).cacheWrites = 1) ∧
    ((summaryEndpoint envS2 genS eventId language force).outcome = .storeHit s →
      summaryEndpoint envS2 genS eventId language force =
        ⟨.storeHit s, envS2.summaries, envS2.cache, 0, 0, false⟩) ∧
    ((quizEndpoint envQ (.error m) eventId language force).generatorInvoked = true →
      quizEndpoint envQ (.error m) eventId language force =
        ⟨.serverError m, envQ.quizzes, envQ.cache, 0, 0, true⟩) ∧
    ((quizEndpoint envQ (.ok qd) eventId language force).generatorInvoked = true →
      (quizEndpoint envQ (.ok qd) eventId language force).outcome = .generated qd ∧
      (quizEndpoint envQ (.ok qd) eventId language force).storeWrites = 1 ∧
      (quizEndpoint envQ (.ok qd) eventId language force).cacheWrites = 1) ∧
    ((quizEndpoint envQ2 genQ eventId language force).outcome = .cacheHit qc →
      quizEndpoint envQ2 genQ eventId language force =
        ⟨.cacheHit qc, envQ2.quizzes, envQ2.cache, 0, 0, false⟩) := by
  intro envS envS2 envQ envQ2 eventId language force m c genS genQ qd s qc
  refine ⟨?_, ?_, ?_, ?_, ?_, ?_⟩
  · intro h
    unfold summaryEndpoint at h ⊢
    by_cases hfe : envS.featuresEnabled = false
    · simp [hfe] at h
    · rcases hn : normalizeLanguageCode (some language) with msg | nl
      · simp [hfe, hn] at h
      · rcases hsum : (if force then none else envS.summaries eventId nl) with _ | s0
        · rcases htr : envS.transcripts eventId nl with _ | t
          · simp [hfe, hn, hsum, htr] at h
          · simp [hfe, hn, hsum, htr]
        · simp [hfe, hn, hsum] at h
  · intro h
    unfold summaryEndpoint at h ⊢
    by_cases hfe : envS.featuresEnabled = false
    · simp [hfe] at h
    · rcases hn : normalizeLanguageCode (some language) with msg | nl
      · simp [hfe, hn] at h
      · rcases hsum : (if force then none else envS.summaries eventId nl) with _ | s0
        · rcases htr : envS.transcripts eventId nl with _ | t
          · simp [hfe, hn, hsum, htr] at h
          · simp [hfe, hn, hsum, htr]
        · simp [hfe, hn, hsum] at h
  · intro h
    unfold summaryEndpoint at h ⊢
    by_cases hfe : envS2.featuresEnabled = false
    · simp [hfe] at h
    · rcases hn : normalizeLanguageCode (some language) with msg | nl
      · simp [hfe, hn] at h
      · rcases hsum : (if force then none else envS2.summaries eventId nl) with _ | s0
        · rcases htr : envS2.transcripts eventId nl with _ | t
          · simp [hfe, hn, hsum, htr] at h
          · rcases genS with gm | gc
            · simp [hfe, hn, hsum, htr] at h
            · simp [hfe, hn, hsum, htr] at h
        · simp [hfe, hn, hsum] at h ⊢
          exact h
  · intro h
    unfold quizEndpoint at h ⊢
    by_cases hfe : envQ.quizEnabled = false
    · simp [hfe] at h
    · rcases hc2 : (if force then none else envQ.cache (quizCacheKey eventId language))
          with _ | q0
      · rcases hn : normalizeLanguageCode (some language) with msg | nl
        · simp [hfe, hc2, hn] at h
        · rcases htr : envQ.transcripts eventId nl with _ | t
          · simp [hfe, hc2, hn, htr] at h
          · simp [hfe, hc2, hn, htr]
      · simp [hfe, hc2] at h
  · intro h
    unfold quizEndpoint at h ⊢
    by_cases hfe : envQ.quizEnabled = false
    · simp [hfe] at h
    · rcases hc2 : (if force then none else envQ.cache (quizCacheKey eventId language))
          with _ | q0
      · rcases hn : normalizeLanguageCode (some language) with msg | nl
        · simp [hfe, hc2, hn] at h
        · rcases htr : envQ.transcripts eventId nl with _ | t
          · simp [hfe, hc2, hn, htr] at h
          · simp [hfe, hc2, hn, htr]
      · simp [hfe, hc2] at h
  · intro h
    unfold quizEndpoint at h ⊢
    by_cases hfe : envQ2.quizEnabled = false
    · simp [hfe] at h
    · rcases hc2 : (if force then none else envQ2.cache (quizCacheKey eventId language))
          with _ | q0
      · rcases hn : normalizeLanguageCode (some language) with msg | nl
        · simp [hfe, hc2, hn] at h
        · rcases htr : envQ2.transcripts eventId nl with _ | t
          · simp [hfe, hc2, hn, htr] at h
          · rcases genQ with gm | gc
            · simp [hfe, hc2, hn, htr] at h
            · simp [hfe, hc2, hn, htr] at h
      · simp [hfe, hc2] at h ⊢
        exact h

/-- Witness for C6: generator failure with no writes, generation with one
store and one cache write, and hits with zero writes, at concrete
endpoint states. -/
theorem write_discipline_witness :
    (summaryEndpoint bareSummaryEnv (.error "boom") 7 "en" false =
      ⟨.serverError "boom", bareSummaryEnv.summaries, bareSummaryEnv.cache,
        0, 0, true⟩) ∧
    ((summaryEndpoint bareSummaryEnv (.ok "fresh") 7 "en" false).outcome =
        .generated "fresh" ∧
      (summaryEndpoint bareSummaryEnv (.ok "fresh") 7 "en" false).storeWrites = 1 ∧
      (summaryEndpoint bareSummaryEnv (.ok "fresh") 7 "en" false).cacheWrites = 1) ∧
    (summaryEndpoint storedSummaryEnv (.ok "other") 7 "en" false =
      ⟨.storeHit "stored summary", storedSummaryEnv.summaries,
        storedSummaryEnv.cache, 0, 0, false⟩) ∧
    (quizEndpoint bareQuizEnv (.error "boom") 7 "en" false =
      ⟨.serverError "boom", bareQuizEnv.quizzes, bareQuizEnv.cache, 0, 0, true⟩) ∧
    ((quizEndpoint bareQuizEnv (.ok [demoQuestionC]) 7 "en" false).outcome =
        .generated [demoQuestionC] ∧
      (quizEndpoint bareQuizEnv (.ok [demoQuestionC]) 7 "en" false).storeWrites = 1 ∧
      (quizEndpoint bareQuizEnv (.ok [demoQuestionC]) 7 "en" false).cacheWrites = 1) ∧
    (quizEndpoint cachedQuizEnv (.ok [demoQuestionC]) 7 "en" false =
      ⟨.cacheHit [demoQuestionB], cachedQuizEnv.quizzes, cachedQuizEnv.cache,
        0, 0, false⟩) := by
  have h := write_discipline bareSummaryEnv storedSummaryEnv bareQuizEnv cachedQuizEnv
    7 "en" false "boom" "fresh" (.ok "other") (.ok [demoQuestionC]) [demoQuestionC]
    "stored summary" [demoQuestionB]
  exact ⟨h.1 (by decide), h.2.1 (by decide), h.2.2.1 (by decide), h.2.2.2.1 (by decide),
    h.2.2.2.2.1 (by decide), h.2.2.2.2.2 (by decide)⟩

end TobiraAI
